import Mathlib

/-!
Shallow embedding of the roar peer-to-peer voice chat core
(`src/core/audio_handler.py`, `src/core/network_manager.py`, `src/app.py`)
and proofs about the properties its specification states.

Machine integers are modelled as `Nat` (the Python integers involved are
non-negative); byte strings are `List Nat` with each element below 256;
the AGC floating-point state is modelled over `ℚ`, which is faithful for
the clamping property proved here.
-/

namespace Roar

/-! ## Adaptive jitter buffer (`audio_handler.py`, class `AdaptiveJitterBuffer`) -/

/-- State of `AdaptiveJitterBuffer`: `target_size`, `min_size`, `max_size`,
`underrun_count`, `overrun_count`. -/
structure JitterBuffer where
  target_size : Nat
  min_size : Nat
  max_size : Nat
  underrun_count : Nat
  overrun_count : Nat
deriving DecidableEq, Repr

/-- The buffer constructed by `AudioHandler.__init__`:
`AdaptiveJitterBuffer(initial_size=8, min_size=4, max_size=20)`. -/
def initJitterBuffer : JitterBuffer :=
  { target_size := 8, min_size := 4, max_size := 20
    underrun_count := 0, overrun_count := 0 }

/-- `AdaptiveJitterBuffer.adjust(queue_size)`.  The Python comparison
`queue_size > self.target_size * 1.5` is rendered exactly for integers as
`2 * queue_size > 3 * target_size`. -/
def adjust (jb : JitterBuffer) (queue_size : Nat) : JitterBuffer :=
  if queue_size = 0 then
    let u := jb.underrun_count + 1
    if u > 3 then
      { jb with target_size := min (jb.target_size + 2) jb.max_size
                underrun_count := 0 }
    else
      { jb with underrun_count := u }
  else if 2 * queue_size > 3 * jb.target_size then
    let o := jb.overrun_count + 1
    if o > 3 then
      { jb with target_size := max (jb.target_size - 1) jb.min_size
                overrun_count := 0 }
    else
      { jb with overrun_count := o }
  else
    { jb with underrun_count := 0, overrun_count := 0 }

/-- The jitter-buffer state after a sequence of `adjust` calls with the
given observed queue lengths, starting from the initial buffer. -/
def runAdjust (qs : List Nat) : JitterBuffer :=
  qs.foldl adjust initJitterBuffer

/-! ## Automatic gain control (`audio_handler.py`, `apply_agc`) -/

/-- `AGC_MIN_GAIN = 0.5`. -/
def AGC_MIN_GAIN : ℚ := 1 / 2

/-- `AGC_MAX_GAIN = 4.0`. -/
def AGC_MAX_GAIN : ℚ := 4

/-- `AGC_TARGET_LEVEL = 0.3`. -/
def AGC_TARGET_LEVEL : ℚ := 3 / 10

/-- `np.clip(x, lo, hi)`: `lo` if `x < lo`, `hi` if `x > hi`, else `x`. -/
def npClip (x lo hi : ℚ) : ℚ :=
  if x < lo then lo else if x > hi then hi else x

/-- The gain update of `apply_agc` for one frame: when the normalised RMS
level exceeds `0.01`, compute `target_gain = AGC_TARGET_LEVEL / level`,
lerp `gain ← 0.9·gain + 0.1·target_gain`, and clamp to
`[AGC_MIN_GAIN, AGC_MAX_GAIN]`; otherwise the gain is unchanged. -/
def agcUpdateGain (gain level : ℚ) : ℚ :=
  if level > 1 / 100 then
    npClip (gain * (9 / 10) + (AGC_TARGET_LEVEL / level) * (1 / 10))
      AGC_MIN_GAIN AGC_MAX_GAIN
  else
    gain

/-! ## Theorems: jitter buffer claims -/

lemma adjust_bounds (jb : JitterBuffer) (q : Nat)
    (hmin : jb.min_size ≤ jb.target_size) (hmax : jb.target_size ≤ jb.max_size) :
    jb.min_size ≤ (adjust jb q).target_size ∧
      (adjust jb q).target_size ≤ jb.max_size := by
  unfold adjust
  dsimp only
  split
  · split
    · refine ⟨?_, ?_⟩ <;> dsimp only <;> omega
    · exact ⟨hmin, hmax⟩
  · split
    · split
      · refine ⟨?_, ?_⟩ <;> dsimp only <;> omega
      · exact ⟨hmin, hmax⟩
    · exact ⟨hmin, hmax⟩

lemma adjust_min_max (jb : JitterBuffer) (q : Nat) :
    (adjust jb q).min_size = jb.min_size ∧ (adjust jb q).max_size = jb.max_size := by
  unfold adjust
  dsimp only
  split
  · split <;> simp
  · split
    · split <;> simp
    · simp

lemma foldl_adjust_bounds (qs : List Nat) (jb : JitterBuffer)
    (hmin : jb.min_size ≤ jb.target_size) (hmax : jb.target_size ≤ jb.max_size)
    (h4 : jb.min_size = 4) (h20 : jb.max_size = 20) :
    4 ≤ (qs.foldl adjust jb).target_size ∧ (qs.foldl adjust jb).target_size ≤ 20 := by
  induction qs generalizing jb with
  | nil => simp only [List.foldl_nil]; omega
  | cons q qs ih =>
    have hb := adjust_bounds jb q hmin hmax
    have hm := adjust_min_max jb q
    exact ih (adjust jb q) (hm.1 ▸ hb.1) (hm.2 ▸ hb.2) (hm.1.trans h4) (hm.2.trans h20)

/-- C6: for every reachable state of the adaptive jitter buffer (initial
target 8, and after any sequence of `adjust` calls with arbitrary observed
queue lengths), `target_size` lies within `[MIN_JITTER, MAX_JITTER] = [4, 20]`. -/
theorem jitter_target_within_bounds (qs : List Nat) :
    4 ≤ (runAdjust qs).target_size ∧ (runAdjust qs).target_size ≤ 20 :=
  foldl_adjust_bounds qs initJitterBuffer (by decide) (by decide) rfl rfl

/-- C3 counterexample: starting from the initial buffer (underrun counter 0),
three consecutive `adjust` calls observing queue length 0 leave
`target_size` at 8 — not `min(8 + 2, 20) = 10` — and leave the underrun
counter at 3, not 0.  The increase only happens on the fourth consecutive
zero observation, because the code tests `underrun_count > 3` after
incrementing. -/
theorem jitter_third_zero_no_increase :
    (adjust (adjust (adjust initJitterBuffer 0) 0) 0).target_size = 8 ∧
      (adjust (adjust (adjust initJitterBuffer 0) 0) 0).target_size ≠
        min (initJitterBuffer.target_size + 2) initJitterBuffer.max_size ∧
      (adjust (adjust (adjust initJitterBuffer 0) 0) 0).underrun_count = 3 := by
  decide

/-- C3 amended: from any state whose underrun counter is 0, if `adjust`
observes a queue length of zero on four consecutive calls, then on that
fourth call `target_size` becomes `min(target_size + 2, max_size)` and the
underrun counter resets to zero. -/
theorem jitter_fourth_zero_increases (jb : JitterBuffer)
    (h : jb.underrun_count = 0) :
    (adjust (adjust (adjust (adjust jb 0) 0) 0) 0).target_size =
        min (jb.target_size + 2) jb.max_size ∧
      (adjust (adjust (adjust (adjust jb 0) 0) 0) 0).underrun_count = 0 := by
  simp [adjust, h]

/-- Witness for the amended C3 theorem at the initial buffer. -/
theorem jitter_fourth_zero_increases_witness :
    (adjust (adjust (adjust (adjust initJitterBuffer 0) 0) 0) 0).target_size =
        min (initJitterBuffer.target_size + 2) initJitterBuffer.max_size ∧
      (adjust (adjust (adjust (adjust initJitterBuffer 0) 0) 0) 0).underrun_count = 0 :=
  jitter_fourth_zero_increases initJitterBuffer rfl

/-! ## Theorems: AGC claim -/

/-- C7: whenever the AGC performs a gain update (the frame's normalised RMS
level exceeds 0.01), the resulting gain multiplier applied to the samples
lies in `[0.5, 4.0]`, for every starting gain. -/
theorem agc_gain_within_bounds (gain level : ℚ) (h : level > 1 / 100) :
    AGC_MIN_GAIN ≤ agcUpdateGain gain level ∧
      agcUpdateGain gain level ≤ AGC_MAX_GAIN := by
  unfold agcUpdateGain npClip
  rw [if_pos h]
  by_cases h1 : gain * (9 / 10) + AGC_TARGET_LEVEL / level * (1 / 10) < AGC_MIN_GAIN
  · rw [if_pos h1]
    exact ⟨le_refl _, by unfold AGC_MIN_GAIN AGC_MAX_GAIN; norm_num⟩
  · rw [if_neg h1]
    by_cases h2 : gain * (9 / 10) + AGC_TARGET_LEVEL / level * (1 / 10) > AGC_MAX_GAIN
    · rw [if_pos h2]
      exact ⟨by unfold AGC_MIN_GAIN AGC_MAX_GAIN; norm_num, le_refl _⟩
    · rw [if_neg h2]
      exact ⟨le_of_not_lt h1, le_of_not_lt h2⟩

/-- Witness for the AGC bound at gain 1 and RMS level 1. -/
theorem agc_gain_within_bounds_witness :
    AGC_MIN_GAIN ≤ agcUpdateGain 1 1 ∧ agcUpdateGain 1 1 ≤ AGC_MAX_GAIN :=
  agc_gain_within_bounds 1 1 (by norm_num)

/-! ## Connection manager (`network_manager.py`) -/

/-- One peer socket as the connection table sees it: the bytes written to it
so far, whether `conn.sendall` raises on it, and whether `conn.close()` has
been called. -/
structure PeerConn where
  sent : List Nat
  sendFails : Bool
  closed : Bool
deriving DecidableEq, Repr

/-- `self.connections`: a Python dict from peer IP to socket, in insertion
order. -/
abbrev ConnTable := List (String × PeerConn)

/-- `PACKET_TYPE_AUDIO = 0x01`. -/
def PACKET_TYPE_AUDIO : Nat := 1

/-- `PACKET_TYPE_TEXT = 0x02`. -/
def PACKET_TYPE_TEXT : Nat := 2

/-- The four bytes of `struct.pack(\x22!I\x22, n)`: big-endian 32-bit. -/
def be32 (n : Nat) : List Nat :=
  [n / 2 ^ 24 % 256, n / 2 ^ 16 % 256, n / 2 ^ 8 % 256, n % 256]

/-- `struct.pack(\x22!B\x22, t)`: one byte, or a `struct.error` if `t` does
not fit. -/
def packU8 (t : Nat) : Option (List Nat) :=
  if t < 256 then some [t] else none

/-- `struct.pack(\x22!I\x22, n)`: four big-endian bytes, or a `struct.error`
if `n` does not fit in 32 bits. -/
def packU32 (n : Nat) : Option (List Nat) :=
  if n < 2 ^ 32 then some (be32 n) else none

/-- The full wire frame for one packet: type byte, 4-byte big-endian payload
length, payload. -/
def frameBytes (t : Nat) (data : List Nat) : List Nat :=
  t :: (be32 data.length ++ data)

/-- `conn.sendall(bytes)` on a socket that does not fail: the bytes are
appended to the peer's stream. -/
def writeTo (p : PeerConn) (bytes : List Nat) : PeerConn :=
  { p with sent := p.sent ++ bytes }

/-- The broadcast loop of `_send_packet`: try `sendall(packet)` on every
connection in table order; a write error puts the peer on the `disconnected`
list instead.  Returns the table after the loop and the deletions (the
entries of `disconnected`, which `_send_packet` then removes — without
closing their sockets). -/
def sendToAll (packet : List Nat) : ConnTable → ConnTable × ConnTable
  | [] => ([], [])
  | c :: rest =>
    let r := sendToAll packet rest
    if c.2.sendFails then (r.1, c :: r.2)
    else ((c.1, writeTo c.2 packet) :: r.1, r.2)

/-- `_send_packet(packet_type, data)`: an empty payload returns at once;
otherwise the packet `pack(\x22!B\x22, t) + pack(\x22!I\x22, len(data)) + data`
is built (a `struct.error` propagates as `Except.error`) and broadcast to all
connections; peers whose write raised are then deleted from the table.
Returns the new connection table and the removed entries. -/
def sendPacket (packet_type : Nat) (data : List Nat) (conns : ConnTable) :
    Except Unit (ConnTable × ConnTable) :=
  if data = [] then .ok (conns, [])
  else
    match packU8 packet_type, packU32 data.length with
    | some tb, some sb => .ok (sendToAll (tb ++ (sb ++ data)) conns)
    | _, _ => .error ()

lemma sendToAll_fst (packet : List Nat) (conns : ConnTable) :
    (sendToAll packet conns).1 =
      (conns.filter (fun c => !c.2.sendFails)).map (fun c => (c.1, writeTo c.2 packet)) := by
  induction conns with
  | nil => rfl
  | cons c rest ih =>
    by_cases hf : c.2.sendFails <;> simp [sendToAll, hf, ih]

lemma sendToAll_snd (packet : List Nat) (conns : ConnTable) :
    (sendToAll packet conns).2 = conns.filter (fun c => c.2.sendFails) := by
  induction conns with
  | nil => rfl
  | cons c rest ih =>
    by_cases hf : c.2.sendFails <;> simp [sendToAll, hf, ih]

lemma sendPacket_ok (t : Nat) (data : List Nat) (conns : ConnTable)
    (ht : t < 256) (hd : data ≠ []) (hlen : data.length < 2 ^ 32) :
    sendPacket t data conns =
      .ok ((conns.filter (fun c => !c.2.sendFails)).map
            (fun c => (c.1, writeTo c.2 (frameBytes t data))),
          conns.filter (fun c => c.2.sendFails)) := by
  unfold sendPacket packU8 packU32
  rw [if_neg hd, if_pos ht, if_pos hlen]
  dsimp only
  rw [show (([t] ++ (be32 data.length ++ data)) : List Nat) = frameBytes t data from rfl]
  rw [← sendToAll_fst (frameBytes t data) conns, ← sendToAll_snd (frameBytes t data) conns]

/-- C1: for every frame sent by the connection manager with a type tag that
fits in a byte and a non-empty payload shorter than `2^32`, each registered
peer whose write does not fail ends with exactly the bytes
`t :: be32 (length data) ++ data` — the one-byte tag, the 4-byte big-endian
length, and the payload — appended to its stream. -/
theorem frame_on_wire (t : Nat) (data : List Nat) (conns : ConnTable)
    (ip : String) (p : PeerConn)
    (ht : t < 256) (hd : data ≠ []) (hlen : data.length < 2 ^ 32)
    (hmem : (ip, p) ∈ conns) (hok : p.sendFails = false) :
    ∃ rem removed, sendPacket t data conns = .ok (rem, removed) ∧
      (ip, { p with sent := p.sent ++ (t :: (be32 data.length ++ data)) }) ∈ rem := by
  refine ⟨_, _, sendPacket_ok t data conns ht hd hlen, ?_⟩
  refine List.mem_map.mpr ⟨(ip, p), List.mem_filter.mpr ⟨hmem, by simp [hok]⟩, ?_⟩
  simp [writeTo, frameBytes]

/-- Witness for C1: a text frame with payload `[104, 105]` to a single
healthy peer. -/
theorem frame_on_wire_witness :
    ∃ rem removed,
      sendPacket 2 [104, 105] [("10.0.0.7", ⟨[], false, false⟩)] = .ok (rem, removed) ∧
      ("10.0.0.7",
        { (⟨[], false, false⟩ : PeerConn) with
            sent := (⟨[], false, false⟩ : PeerConn).sent ++
              (2 :: (be32 [104, 105].length ++ [104, 105])) }) ∈ rem :=
  frame_on_wire 2 [104, 105] [("10.0.0.7", ⟨[], false, false⟩)] "10.0.0.7"
    ⟨[], false, false⟩ (by decide) (by decide) (by decide) (by decide) rfl

lemma nodup_keys_val_unique {l : ConnTable} {a : String} {b c : PeerConn}
    (hnd : (l.map Prod.fst).Nodup) (h1 : (a, b) ∈ l) (h2 : (a, c) ∈ l) : b = c := by
  induction l with
  | nil => cases h1
  | cons x rest ih =>
    simp only [List.map_cons, List.nodup_cons] at hnd
    rcases List.mem_cons.mp h1 with h1 | h1 <;> rcases List.mem_cons.mp h2 with h2 | h2
    · exact congrArg Prod.snd (h1.trans h2.symm)
    · exfalso
      apply hnd.1
      have hmem : a ∈ List.map Prod.fst rest := List.mem_map_of_mem Prod.fst h2
      rw [(congrArg Prod.fst h1).symm]
      exact hmem
    · exfalso
      apply hnd.1
      have hmem : a ∈ List.map Prod.fst rest := List.mem_map_of_mem Prod.fst h1
      rw [(congrArg Prod.fst h2).symm]
      exact hmem
    · exact ih hnd.2 h1 h2

/-- C5 counterexample: a broadcast over a table holding one healthy peer and
one peer whose write raises.  The failing peer is deregistered (second
component of the result), but its record still has `closed = false`: the
code of `_send_packet` only deletes the table entry and never calls
`conn.close()` on it, contrary to the claim that the failing peer's socket
is closed. -/
theorem broadcast_no_close_cex :
    sendPacket PACKET_TYPE_AUDIO [5]
        [("10.0.0.1", ⟨[], false, false⟩), ("10.0.0.2", ⟨[], true, false⟩)] =
      .ok ([("10.0.0.1", ⟨[1, 0, 0, 0, 1, 5], false, false⟩)],
           [("10.0.0.2", ⟨[], true, false⟩)]) ∧
      (⟨[], true, false⟩ : PeerConn).closed = false :=
  ⟨rfl, rfl⟩

/-- C5 amended: during a broadcast, every registered peer whose write raises
is deregistered from the connection table after the broadcast — its record,
including the never-touched `closed` flag, leaves the table unchanged (the
socket is not closed there) — while every other registered peer still
receives the full frame; one failing peer never prevents the send to
another. -/
theorem broadcast_failure_isolation (t : Nat) (data : List Nat) (conns : ConnTable)
    (ht : t < 256) (hd : data ≠ []) (hlen : data.length < 2 ^ 32)
    (hkeys : (conns.map Prod.fst).Nodup) :
    ∃ rem removed, sendPacket t data conns = .ok (rem, removed) ∧
      (∀ ip p, (ip, p) ∈ conns → p.sendFails = true →
        (ip, p) ∈ removed ∧ ∀ q, (ip, q) ∉ rem) ∧
      (∀ ip p, (ip, p) ∈ conns → p.sendFails = false →
        (ip, writeTo p (frameBytes t data)) ∈ rem) ∧
      (∀ c, c ∈ removed → c ∈ conns) := by
  refine ⟨_, _, sendPacket_ok t data conns ht hd hlen, ?_, ?_, ?_⟩
  · intro ip p hmem hfail
    refine ⟨List.mem_filter.mpr ⟨hmem, by simp [hfail]⟩, ?_⟩
    intro q hq
    rcases List.mem_map.mp hq with ⟨c, hc, hceq⟩
    have hcf := List.mem_filter.mp hc
    have hip : c.1 = ip := congrArg Prod.fst hceq
    have : c.2 = p := by
      refine nodup_keys_val_unique hkeys ?_ hmem
      rw [← hip]
      exact hcf.1
    rw [this] at hcf
    simp [hfail] at hcf
  · intro ip p hmem hok
    exact List.mem_map.mpr ⟨(ip, p), List.mem_filter.mpr ⟨hmem, by simp [hok]⟩, rfl⟩
  · intro c hc
    exact (List.mem_filter.mp hc).1

/-- Witness for the amended C5 theorem: one healthy and one failing peer. -/
theorem broadcast_failure_isolation_witness :
    ∃ rem removed,
      sendPacket 1 [9]
          [("10.0.0.1", ⟨[], false, false⟩), ("10.0.0.2", ⟨[], true, false⟩)] =
        .ok (rem, removed) ∧
      (∀ ip p,
        (ip, p) ∈
          [(("10.0.0.1" : String), (⟨[], false, false⟩ : PeerConn)),
           ("10.0.0.2", ⟨[], true, false⟩)] → p.sendFails = true →
        (ip, p) ∈ removed ∧ ∀ q, (ip, q) ∉ rem) ∧
      (∀ ip p,
        (ip, p) ∈
          [(("10.0.0.1" : String), (⟨[], false, false⟩ : PeerConn)),
           ("10.0.0.2", ⟨[], true, false⟩)] → p.sendFails = false →
        (ip, writeTo p (frameBytes 1 [9])) ∈ rem) ∧
      (∀ c, c ∈ removed →
        c ∈ [(("10.0.0.1" : String), (⟨[], false, false⟩ : PeerConn)),
             ("10.0.0.2", ⟨[], true, false⟩)]) :=
  broadcast_failure_isolation 1 [9]
    [("10.0.0.1", ⟨[], false, false⟩), ("10.0.0.2", ⟨[], true, false⟩)]
    (by decide) (by decide) (by decide) (by decide)

lemma replicate_zero_ne_nil (n : Nat) (hn : n ≠ 0) :
    List.replicate n (0 : Nat) ≠ [] := by
  intro h
  apply hn
  have hlen := congrArg List.length h
  rwa [List.length_replicate, List.length_nil] at hlen

/-- C4 counterexample: a payload of exactly `2^32 - 1` bytes is not rejected
by `_send_packet`: `struct.pack(\x22!I\x22, 2^32 - 1)` succeeds, the wire
frame is built, and its bytes — a non-empty sequence — are written to the
registered peer, contrary to the claim that no bytes of the frame reach any
peer. -/
theorem payload_u32max_sent_cex :
    sendPacket PACKET_TYPE_AUDIO (List.replicate (2 ^ 32 - 1) 0)
        [("10.0.0.3", ⟨[], false, false⟩)] =
      .ok ([("10.0.0.3",
              writeTo ⟨[], false, false⟩
                (frameBytes PACKET_TYPE_AUDIO (List.replicate (2 ^ 32 - 1) 0)))], []) ∧
      frameBytes PACKET_TYPE_AUDIO (List.replicate (2 ^ 32 - 1) 0) ≠ [] := by
  constructor
  · rw [sendPacket_ok PACKET_TYPE_AUDIO (List.replicate (2 ^ 32 - 1) 0)
      [("10.0.0.3", ⟨[], false, false⟩)] (by decide)
      (replicate_zero_ne_nil (2 ^ 32 - 1) (by norm_num))
      (by rw [List.length_replicate]; norm_num)]
    rfl
  · exact List.cons_ne_nil _ _

/-- C4 amended: a payload of length `2^32` or more is rejected at framing —
`struct.pack(\x22!I\x22, size)` raises before the frame is constructed, so no
bytes are written to any peer connection.  The boundary is `2^32`, not
`2^32 - 1`: the latter still fits in an unsigned 32-bit length field. -/
theorem oversized_payload_rejected (t : Nat) (data : List Nat) (conns : ConnTable)
    (hd : data ≠ []) (hlen : 2 ^ 32 ≤ data.length) :
    sendPacket t data conns = .error () := by
  unfold sendPacket packU32
  rw [if_neg hd, if_neg (by omega)]
  rcases packU8 t with _ | tb <;> rfl

/-- Witness for the amended C4 theorem at a `2^32`-byte payload. -/
theorem oversized_payload_rejected_witness :
    sendPacket 1 (List.replicate (2 ^ 32) 0) [] = .error () :=
  oversized_payload_rejected 1 (List.replicate (2 ^ 32) 0) []
    (replicate_zero_ne_nil (2 ^ 32) (by norm_num))
    (by rw [List.length_replicate])

/-! ## Outbound dialing (`network_manager.py`, `connect_to_peer`) -/

/-- Number of registered connections for a given address. -/
def countIp (ip : String) (conns : ConnTable) : Nat :=
  (conns.filter (fun c => c.1 = ip)).length

/-- `connect_to_peer(peer_ip, peer_port)`: if `peer_ip` is already a key of
`self.connections`, return `True` at once without touching the table;
otherwise dial (`dial = some sock` models a successful `sock.connect`,
`none` a connection error or timeout), register the socket under `peer_ip`
on success and return `True`, or return `False` on failure. -/
def connectToPeer (dial : Option PeerConn) (peer_ip : String) (conns : ConnTable) :
    Bool × ConnTable :=
  if conns.any (fun c => c.1 = peer_ip) then (true, conns)
  else
    match dial with
    | some sock => (true, conns ++ [(peer_ip, sock)])
    | none => (false, conns)

lemma countIp_zero_any_false {a : String} {conns : ConnTable}
    (h : countIp a conns = 0) : conns.any (fun c => c.1 = a) = false := by
  unfold countIp at h
  rw [List.length_eq_zero] at h
  rw [List.any_eq_false]
  intro c hc
  have := List.filter_eq_nil_iff.mp h c hc
  simpa using this

/-- C8: if a connection to address `a` is already registered,
`connect_to_peer` succeeds and leaves the connection table unchanged; and
from a table with no connection to `a`, two successive calls of which the
first dial succeeds yield `True` both times and exactly one registered
connection for `a` (the second call does not change the table). -/
theorem connect_to_peer_idempotent (a : String) (conns : ConnTable)
    (d2 : Option PeerConn) (s : PeerConn) (hfresh : countIp a conns = 0) :
    (∀ (d : Option PeerConn) (t : ConnTable),
      t.any (fun c => c.1 = a) = true → connectToPeer d a t = (true, t)) ∧
      connectToPeer (some s) a conns = (true, conns ++ [(a, s)]) ∧
      connectToPeer d2 a (conns ++ [(a, s)]) = (true, conns ++ [(a, s)]) ∧
      countIp a (conns ++ [(a, s)]) = 1 := by
  have hany := countIp_zero_any_false hfresh
  refine ⟨?_, ?_, ?_, ?_⟩
  · intro d t ht
    unfold connectToPeer
    rw [if_pos ht]
  · unfold connectToPeer
    rw [hany]
    rfl
  · unfold connectToPeer
    rw [if_pos ?_]
    rw [List.any_append, hany]
    simp
  · unfold countIp at hfresh ⊢
    rw [List.length_eq_zero] at hfresh
    rw [List.filter_append, hfresh]
    simp

/-- Witness for C8: dialing a fresh address twice on an initially empty
table. -/
theorem connect_to_peer_idempotent_witness :
    (∀ (d : Option PeerConn) (t : ConnTable),
      t.any (fun c => c.1 = "10.0.0.5") = true → connectToPeer d "10.0.0.5" t = (true, t)) ∧
      connectToPeer (some ⟨[], false, false⟩) "10.0.0.5" [] =
        (true, [] ++ [("10.0.0.5", ⟨[], false, false⟩)]) ∧
      connectToPeer none "10.0.0.5" ([] ++ [("10.0.0.5", ⟨[], false, false⟩)]) =
        (true, [] ++ [("10.0.0.5", ⟨[], false, false⟩)]) ∧
      countIp "10.0.0.5" ([] ++ [("10.0.0.5", (⟨[], false, false⟩ : PeerConn))]) = 1 :=
  connect_to_peer_idempotent "10.0.0.5" [] none ⟨[], false, false⟩ rfl

/-! ## Playback queue (`audio_handler.py`, `play_audio`) -/

/-- `PLAYBACK_QUEUE_SIZE = 50`. -/
def PLAYBACK_QUEUE_SIZE : Nat := 50

/-- `play_audio(opus_data)`: an empty payload returns at once; a
`put_nowait` on a queue below capacity appends the frame; when the queue is
full (`put_nowait` raises), five frames are taken from the front and the new
frame is appended.  The inner recovery can itself fail only if the queue is
still at capacity after dropping five frames — impossible from the 50-frame
capacity — in which case the new frame is discarded. -/
def play_audio (queue : List (List Nat)) (opus_data : List Nat) : List (List Nat) :=
  if opus_data = [] then queue
  else if queue.length < PLAYBACK_QUEUE_SIZE then queue ++ [opus_data]
  else
    let dropped := queue.drop 5
    if dropped.length < PLAYBACK_QUEUE_SIZE then dropped ++ [opus_data] else dropped

/-- C9: enqueueing a non-empty frame when the playback queue holds
`PLAYBACK_QUEUE_SIZE = 50` frames removes exactly the five oldest frames and
then appends the new frame, so the new frame is enqueued at the tail, the 45
surviving frames keep their order, and the queue ends with 46 frames. -/
theorem play_audio_full_queue (queue : List (List Nat)) (d : List Nat)
    (hq : queue.length = PLAYBACK_QUEUE_SIZE) (hd : d ≠ []) :
    play_audio queue d = queue.drop 5 ++ [d] ∧
      (play_audio queue d).length = 46 := by
  unfold play_audio PLAYBACK_QUEUE_SIZE
  unfold PLAYBACK_QUEUE_SIZE at hq
  rw [if_neg hd, if_neg (by omega)]
  dsimp only
  rw [if_pos (by rw [List.length_drop]; omega)]
  refine ⟨rfl, ?_⟩
  rw [List.length_append, List.length_drop, hq]
  rfl

/-- Witness for C9 at a queue of fifty one-byte frames. -/
theorem play_audio_full_queue_witness :
    play_audio (List.replicate 50 [3]) [4] = (List.replicate 50 [3]).drop 5 ++ [[4]] ∧
      (play_audio (List.replicate 50 [3]) [4]).length = 46 :=
  play_audio_full_queue (List.replicate 50 [3]) [4] (by simp [PLAYBACK_QUEUE_SIZE]) (by simp)

/-! ## Text sending (`app.py` `send_message`, `network_manager.py` `send_text`) -/

/-- The characters Python's `str.strip()` removes: ASCII whitespace and
control separators plus the Unicode space separators. -/
def pySpaceChars : List Char :=
  [' ', '\t', '\n', '\x0b', '\x0c', '\r',
   Char.ofNat 28, Char.ofNat 29, Char.ofNat 30, Char.ofNat 31, Char.ofNat 133,
   Char.ofNat 160, Char.ofNat 5760,
   Char.ofNat 8192, Char.ofNat 8193, Char.ofNat 8194, Char.ofNat 8195,
   Char.ofNat 8196, Char.ofNat 8197, Char.ofNat 8198, Char.ofNat 8199,
   Char.ofNat 8200, Char.ofNat 8201, Char.ofNat 8202,
   Char.ofNat 8232, Char.ofNat 8233, Char.ofNat 8239, Char.ofNat 8287,
   Char.ofNat 12288]

/-- Whether a character counts as whitespace for `str.strip()`. -/
def isPySpace (c : Char) : Bool :=
  pySpaceChars.contains c

/-- `message.strip()`: leading and trailing whitespace removed. -/
def pyStrip (s : List Char) : List Char :=
  ((s.dropWhile isPySpace).reverse.dropWhile isPySpace).reverse

/-- `str.encode(\x22utf-8\x22)` for one scalar value. -/
def utf8EncodeChar (c : Char) : List Nat :=
  let n := c.toNat
  if n < 128 then [n]
  else if n < 2048 then [192 + n / 64, 128 + n % 64]
  else if n < 65536 then [224 + n / 4096, 128 + n / 64 % 64, 128 + n % 64]
  else [240 + n / 262144, 128 + n / 4096 % 64, 128 + n / 64 % 64, 128 + n % 64]

/-- `str.encode(\x22utf-8\x22)` for a whole string. -/
def utf8Encode (s : List Char) : List Nat :=
  (s.map utf8EncodeChar).flatten

/-- `send_text(message)`: an empty message returns at once; otherwise the
message is UTF-8 encoded and `_send_packet(PACKET_TYPE_TEXT, data)` is
called; any exception from that call is caught and logged, leaving the
table as the failed call left it (a `struct.error` fires before any write,
so the table is unchanged). -/
def send_text (message : List Char) (conns : ConnTable) :
    Except Unit (ConnTable × ConnTable) :=
  if message = [] then .ok (conns, [])
  else
    match sendPacket PACKET_TYPE_TEXT (utf8Encode message) conns with
    | .ok r => .ok r
    | .error _ => .ok (conns, [])

/-- `VoiceP2PChat.send_message(message)`: only a message that is non-empty
and has a non-empty `strip()` is handed to `send_text`. -/
def send_message (message : List Char) (conns : ConnTable) :
    Except Unit (ConnTable × ConnTable) :=
  if message ≠ [] ∧ pyStrip message ≠ [] then send_text message conns
  else .ok (conns, [])

lemma pyStrip_all_space {s : List Char} (h : s.all isPySpace = true) :
    pyStrip s = [] := by
  unfold pyStrip
  have hd : s.dropWhile isPySpace = [] := by
    rw [List.dropWhile_eq_nil_iff]
    intro x hx
    exact List.all_eq_true.mp h x hx
  rw [hd]
  rfl

/-- C10: for every message string that is empty or consists only of
whitespace, `send_message` sends nothing: no TEXT frame is framed or written
to any peer, and the connection table is unchanged. -/
theorem blank_message_not_sent (s : List Char) (conns : ConnTable)
    (h : s = [] ∨ s.all isPySpace = true) :
    send_message s conns = .ok (conns, []) := by
  unfold send_message
  rcases h with h | h
  · rw [if_neg]
    intro hc
    exact hc.1 h
  · rw [if_neg]
    intro hc
    exact hc.2 (pyStrip_all_space h)

/-- Witness for C10 at a single-space message over a one-peer table. -/
theorem blank_message_not_sent_witness :
    send_message [' '] [("10.0.0.9", ⟨[], false, false⟩)] =
      .ok ([("10.0.0.9", ⟨[], false, false⟩)], []) :=
  blank_message_not_sent [' '] [("10.0.0.9", ⟨[], false, false⟩)] (Or.inr (by decide))

/-! ## Receive loop (`network_manager.py`, `_receive_from_peer`, `_recv_exact`) -/

/-- An event delivered to a registered callback by the receive loop. -/
inductive RxEvent where
  | audio (data : List Nat) (peer_ip : String) : RxEvent
  | text (message : List Char) (peer_ip : String) : RxEvent
deriving DecidableEq, Repr

/-- Strict UTF-8 decoding as `bytes.decode(\x22utf-8\x22)` performs it:
continuation bytes are `0x80-0xBF`, overlong encodings, surrogates and code
points beyond `U+10FFFF` are rejected.  `none` models a
`UnicodeDecodeError`. -/
def utf8Decode : List Nat → Option (List Char)
  | [] => some []
  | b :: rest =>
    if b < 128 then
      (utf8Decode rest).map (fun cs => Char.ofNat b :: cs)
    else if b < 194 then none
    else if b < 224 then
      match rest with
      | b1 :: rest1 =>
        if 128 ≤ b1 ∧ b1 < 192 then
          (utf8Decode rest1).map
            (fun cs => Char.ofNat ((b - 192) * 64 + (b1 - 128)) :: cs)
        else none
      | [] => none
    else if b < 240 then
      match rest with
      | b1 :: b2 :: rest2 =>
        if (if b = 224 then 160 ≤ b1 ∧ b1 < 192
            else if b = 237 then 128 ≤ b1 ∧ b1 < 160
            else 128 ≤ b1 ∧ b1 < 192) ∧ 128 ≤ b2 ∧ b2 < 192 then
          (utf8Decode rest2).map
            (fun cs =>
              Char.ofNat ((b - 224) * 4096 + (b1 - 128) * 64 + (b2 - 128)) :: cs)
        else none
      | _ => none
    else if b < 245 then
      match rest with
      | b1 :: b2 :: b3 :: rest3 =>
        if (if b = 240 then 144 ≤ b1 ∧ b1 < 192
            else if b = 244 then 128 ≤ b1 ∧ b1 < 144
            else 128 ≤ b1 ∧ b1 < 192) ∧
            128 ≤ b2 ∧ b2 < 192 ∧ 128 ≤ b3 ∧ b3 < 192 then
          (utf8Decode rest3).map
            (fun cs =>
              Char.ofNat
                ((b - 240) * 262144 + (b1 - 128) * 4096 + (b2 - 128) * 64 +
                  (b3 - 128)) :: cs)
        else none
      | _ => none
    else none

/-- `struct.unpack(\x22!I\x22, size_data)`: big-endian 32-bit read. -/
def ofBe32 (b0 b1 b2 b3 : Nat) : Nat :=
  ((b0 * 256 + b1) * 256 + b2) * 256 + b3

/-- One iteration of the receive loop over the remaining stream bytes:
`_recv_exact(1)` for the type, `_recv_exact(4)` for the size,
`_recv_exact(size)` for the payload.  `none` models every way the loop
breaks: stream end or a read error during any of the three reads (a short
read), or a zero-length payload, which `if not data: break` also treats as
a termination condition. -/
def readFrame (s : List Nat) : Option (Nat × List Nat × List Nat) :=
  match s with
  | t :: b0 :: b1 :: b2 :: b3 :: body =>
    let size := ofBe32 b0 b1 b2 b3
    if size = 0 then none
    else if size ≤ body.length then some (t, body.take size, body.drop size)
    else none
  | _ => none

lemma readFrame_rest_lt {s : List Nat} {t : Nat} {p r : List Nat}
    (h : readFrame s = some (t, p, r)) : r.length < s.length := by
  rcases s with _ | ⟨t0, s⟩
  · simp [readFrame] at h
  rcases s with _ | ⟨b0, s⟩
  · simp [readFrame] at h
  rcases s with _ | ⟨b1, s⟩
  · simp [readFrame] at h
  rcases s with _ | ⟨b2, s⟩
  · simp [readFrame] at h
  rcases s with _ | ⟨b3, body⟩
  · simp [readFrame] at h
  unfold readFrame at h
  dsimp only at h
  split at h
  · cases h
  · split at h
    · rcases h with ⟨⟩
      have hlen := List.length_drop (ofBe32 b0 b1 b2 b3) body
      simp only [List.length_cons]
      omega
    · cases h

/-- The callback invocations for one parsed frame: AUDIO frames go to the
audio callback; TEXT frames go to the text callback after UTF-8 decoding,
with a `UnicodeDecodeError` logged and producing no invocation; unknown
types are logged and skipped. -/
def frameEvents (packet_type : Nat) (data : List Nat) (peer_ip : String) :
    List RxEvent :=
  if packet_type = PACKET_TYPE_AUDIO then [RxEvent.audio data peer_ip]
  else if packet_type = PACKET_TYPE_TEXT then
    match utf8Decode data with
    | some msg => [RxEvent.text msg peer_ip]
    | none => []
  else []

/-- The receive loop of `_receive_from_peer` over the remaining stream
bytes: parse frames and fire callbacks until a read fails short or a
zero-length payload arrives. -/
def receiveEvents (peer_ip : String) (s : List Nat) : List RxEvent :=
  match h : readFrame s with
  | none => []
  | some (t, p, r) => frameEvents t p peer_ip ++ receiveEvents peer_ip r
termination_by s.length
decreasing_by exact readFrame_rest_lt h

/-- `del self.connections[peer_ip]` (guarded by a membership test). -/
def eraseConn (ip : String) (conns : ConnTable) : ConnTable :=
  conns.filter (fun c => c.1 ≠ ip)

/-- `_receive_from_peer(conn, peer_ip)` in full: run the receive loop on
the connection's byte stream, then deregister the connection.  Returns the
fired callback events and the connection table after the deregistration. -/
def receiveFromPeer (peer_ip : String) (s : List Nat) (conns : ConnTable) :
    List RxEvent × ConnTable :=
  (receiveEvents peer_ip s, eraseConn peer_ip conns)

lemma receiveEvents_none {ip : String} {s : List Nat}
    (h : readFrame s = none) : receiveEvents ip s = [] := by
  rw [receiveEvents]
  split
  · rfl
  · next t p r heq => rw [h] at heq; cases heq

lemma receiveEvents_some {ip : String} {s : List Nat} {t : Nat} {p r : List Nat}
    (h : readFrame s = some (t, p, r)) :
    receiveEvents ip s = frameEvents t p ip ++ receiveEvents ip r := by
  rw [receiveEvents]
  split
  · next heq => rw [h] at heq; cases heq
  · next t2 p2 r2 heq =>
    rw [h] at heq
    rcases heq with ⟨⟩
    rfl

lemma readFrame_frameBytes (t : Nat) (p rest : List Nat)
    (hp : p ≠ []) (hlen : p.length < 2 ^ 32) :
    readFrame (frameBytes t p ++ rest) = some (t, p, rest) := by
  unfold frameBytes be32 readFrame
  simp only [List.cons_append, List.append_assoc, List.nil_append]
  have hsize : ofBe32 (p.length / 2 ^ 24 % 256) (p.length / 2 ^ 16 % 256)
      (p.length / 2 ^ 8 % 256) (p.length % 256) = p.length := by
    unfold ofBe32
    omega
  rw [hsize]
  rw [if_neg (by intro h0; exact hp (List.length_eq_zero.mp h0))]
  rw [if_pos (by rw [List.length_append]; omega)]
  rw [List.take_left, List.drop_left]


lemma readFrame_frameBytes_nil (t : Nat) (p : List Nat)
    (hp : p ≠ []) (hlen : p.length < 2 ^ 32) :
    readFrame (frameBytes t p) = some (t, p, []) := by
  have h := readFrame_frameBytes t p [] hp hlen
  rwa [List.append_nil] at h

/-- C2 counterexample: the byte `0xFF` is not valid UTF-8, so a TEXT frame
carrying it raises a `UnicodeDecodeError` — yet the receive loop does not
terminate there: the error is caught and logged inside the loop, and a
following AUDIO frame on the same stream is still delivered to the audio
callback, contrary to the claim that any payload decode failure terminates
the receiver. -/
theorem rx_decode_failure_continues_cex :
    utf8Decode [255] = none ∧
      receiveEvents "10.0.0.4"
          (frameBytes PACKET_TYPE_TEXT [255] ++ frameBytes PACKET_TYPE_AUDIO [7]) =
        [RxEvent.audio [7] "10.0.0.4"] := by
  refine ⟨rfl, ?_⟩
  rw [receiveEvents_some
    (readFrame_frameBytes PACKET_TYPE_TEXT [255] (frameBytes PACKET_TYPE_AUDIO [7])
      (by decide) (by decide))]
  rw [receiveEvents_some
    (readFrame_frameBytes_nil PACKET_TYPE_AUDIO [7] (by decide) (by decide))]
  rw [@receiveEvents_none "10.0.0.4" [] rfl]
  rfl

/-- C2 amended: any read error or short read (modelled by `readFrame`
returning `none`, which covers stream end, a read exception, and the
zero-length payload the code also breaks on) terminates the receiver loop
with no further events, and the connection is removed from the connection
table; but a TEXT payload that is not valid UTF-8 does NOT terminate the
loop — the `UnicodeDecodeError` is logged, no text callback fires for that
frame, and the loop continues with the rest of the stream. -/
theorem rx_error_terminates_and_deregisters (s : List Nat) (ip : String)
    (conns : ConnTable) (p rest : List Nat)
    (hshort : readFrame s = none) (hp : p ≠ []) (hlen : p.length < 2 ^ 32)
    (hbad : utf8Decode p = none) :
    receiveFromPeer ip s conns = ([], eraseConn ip conns) ∧
      (∀ q, (ip, q) ∉ (receiveFromPeer ip s conns).2) ∧
      receiveEvents ip (frameBytes PACKET_TYPE_TEXT p ++ rest) =
        receiveEvents ip rest := by
  refine ⟨?_, ?_, ?_⟩
  · unfold receiveFromPeer
    rw [receiveEvents_none hshort]
  · intro q hq
    unfold receiveFromPeer eraseConn at hq
    have hne := (List.mem_filter.mp hq).2
    simp at hne
  · rw [receiveEvents_some (readFrame_frameBytes PACKET_TYPE_TEXT p rest hp hlen)]
    unfold frameEvents
    rw [if_neg (by decide), if_pos rfl, hbad]
    rw [List.nil_append]

/-- Witness for the amended C2 theorem: a one-byte truncated stream, a
one-entry table, and the invalid TEXT payload `[0xFF]`. -/
theorem rx_error_terminates_and_deregisters_witness :
    receiveFromPeer "10.0.0.6" [2] [("10.0.0.6", ⟨[], false, false⟩)] =
        ([], eraseConn "10.0.0.6" [("10.0.0.6", ⟨[], false, false⟩)]) ∧
      (∀ q, ("10.0.0.6", q) ∉
        (receiveFromPeer "10.0.0.6" [2] [("10.0.0.6", ⟨[], false, false⟩)]).2) ∧
      receiveEvents "10.0.0.6" (frameBytes PACKET_TYPE_TEXT [255] ++ []) =
        receiveEvents "10.0.0.6" [] :=
  rx_error_terminates_and_deregisters [2] "10.0.0.6"
    [("10.0.0.6", ⟨[], false, false⟩)] [255] [] rfl (by decide) (by decide) rfl

end Roar
